import Mathlib

/-!
Verification of the NeuroLingo connection/session layer.

This file gives a shallow embedding, in Lean 4, of the parts of the
repository that the specification talks about:

* `src/config.js` — the static configuration constants,
* `src/neuro-connection.js` — the `NeuroConnection` class (transport
  session, liveness monitor, reconnection policy),
* `src/message-handler.js` — `MessageHandler.handleAction`,
* the popup log cache (`PopupManager.addLogEntry`, duplicated verbatim
  in `src/background-main.js`),
* the JSON wire codec used by `handleMessage` / `sendToNeuro`
  (`JSON.parse` / `JSON.stringify` on one complete text message).

The embedding is executable: handlers are pure functions from a state to
a state paired with a list of observable effects (socket writes, timer
creation/cancellation, chrome notifications, log lines), and the
behaviour of the module over time is a fold of a `step` function over a
list of externally generated events (socket open/close, timer firing,
an explicit `disconnect()` call).  Timers are given fresh numeric ids
and the set of currently pending timers is tracked explicitly, which is
exactly the bookkeeping the JavaScript runtime performs for
`setTimeout` / `setInterval` / `clearTimeout` / `clearInterval`.
-/

namespace NeuroLingo

/-! ## Configuration (src/config.js) -/

/-- CONFIG.RECONNECT_INTERVAL, milliseconds. -/
def RECONNECT_INTERVAL : ℚ := 10000

/-- CONFIG.MAX_RECONNECT_INTERVAL, milliseconds. -/
def MAX_RECONNECT_INTERVAL : ℚ := 60000

/-- CONFIG.MAX_RECONNECT_ATTEMPTS. -/
def MAX_RECONNECT_ATTEMPTS : Nat := 5

/-- CONFIG.HEARTBEAT_INTERVAL, milliseconds. -/
def HEARTBEAT_INTERVAL : ℚ := 15000

/-- CONFIG.GAME_NAME. -/
def GAME_NAME : String := "Neuro-Duolingo Game"

/-! ## Frames

A wire frame as constructed by the JavaScript code: a `command`
property, an optional `game` property and an optional structured
payload.  JavaScript object properties that are absent are modelled
with `Option`; the payload itself is left abstract here (the codec in
the JSON section below has its own full model of payloads). -/

/-- Abstract payload attached to a frame; its internal structure is
irrelevant to the transport-session claims. -/
structure Payload where
  tag : String
deriving DecidableEq, Repr

/-- A protocol frame as the JavaScript code builds it:
`command` and `game` may be absent or empty strings. -/
structure Frame where
  command : Option String
  game : Option String
  data : Option Payload
deriving DecidableEq, Repr

/-- JavaScript truthiness of a possibly-absent string:
`undefined`, `null` and the empty string are falsy. -/
def jsFalsyStr : Option String → Bool
  | none => true
  | some s => s = ""

/-! ## Connection state (the fields of `NeuroConnection`)

`ws` holds the readiness of the socket currently stored in `this.ws`
(`none` when `this.ws === null`).  `liveReconnect` / `liveHeartbeat`
are the runtime's sets of pending `setTimeout` / `setInterval` handles
created by this object and not yet fired/cleared; `nextTimer` is a
fresh-handle counter.  These three fields model the JavaScript timer
runtime, not instance fields of the class. -/

/-- Ready state of the underlying WebSocket object. -/
inductive WsReady where
  | connecting
  | open
  | closed
deriving DecidableEq, Repr

/-- The mutable state of one `NeuroConnection` instance together with
the timer bookkeeping of the runtime. -/
structure ConnState where
  ws : Option WsReady
  isConnected : Bool
  lastMessageTime : Option Nat
  reconnectAttempts : Nat
  reconnectTimer : Option Nat
  connectionLost : Bool
  heartbeatInterval : Option Nat
  liveReconnect : List Nat
  liveHeartbeat : List Nat
  nextTimer : Nat
deriving DecidableEq, Repr

/-- Observable effects performed by the handlers. -/
inductive Eff where
  | log (lvl : String) (msg : String)
  | popupConn (connected : Bool)
  | broadcastStatus (connected : Bool) (showNotification : Bool)
  | notifyReconnect
  | notifyDisconnect
  | wsSend (f : Frame)
  | wsClose
  | timerSet (id : Nat) (delay : ℚ)
  | timerCleared (id : Nat)
  | heartbeatSet (id : Nat)
  | heartbeatCleared (id : Nat)
deriving DecidableEq, Repr

/-- Count the effects in a list satisfying a Boolean predicate. -/
def countEff (p : Eff → Bool) : List Eff → Nat
  | [] => 0
  | e :: es => (if p e then 1 else 0) + countEff p es

/-- Recogniser for the terminal "connection lost" notification. -/
def isNotifyDisconnect : Eff → Bool
  | Eff.notifyDisconnect => true
  | _ => false

/-- Recogniser for the "connection restored" notification. -/
def isNotifyReconnect : Eff → Bool
  | Eff.notifyReconnect => true
  | _ => false

/-- Recogniser for a socket write. -/
def isWsSend : Eff → Bool
  | Eff.wsSend _ => true
  | _ => false

/-! ## The handlers of `NeuroConnection`, line by line -/

/-- `stopHeartbeat()` (src/neuro-connection.js:169-174): clear the
interval if one is stored and null the field. -/
def stopHeartbeat (s : ConnState) : ConnState × List Eff :=
  match s.heartbeatInterval with
  | some id =>
      ({ s with heartbeatInterval := none,
                liveHeartbeat := s.liveHeartbeat.erase id },
       [Eff.heartbeatCleared id])
  | none => (s, [])

/-- `startHeartbeat()` (src/neuro-connection.js:146-167): first
`stopHeartbeat()`, then install a fresh `setInterval`. -/
def startHeartbeat (s : ConnState) : ConnState × List Eff :=
  let p := stopHeartbeat s
  let s1 := p.1
  let fresh := s1.nextTimer
  ({ s1 with heartbeatInterval := some fresh,
             liveHeartbeat := s1.liveHeartbeat ++ [fresh],
             nextTimer := fresh + 1 },
   p.2 ++ [Eff.heartbeatSet fresh])

/-- Backoff delay computed by `scheduleReconnect` for a given (already
incremented) value of `reconnectAttempts`
(src/neuro-connection.js:105-108):
`Math.min(MAX_RECONNECT_INTERVAL, RECONNECT_INTERVAL * Math.pow(1.5, Math.min(attempts - 1, 8)))`.
All intermediate doubles are exactly representable, so exact rational
arithmetic is a faithful model. -/
def backoffDelay (attempts : Nat) : ℚ :=
  min MAX_RECONNECT_INTERVAL
    (RECONNECT_INTERVAL * (3 / 2) ^ (Nat.min (attempts - 1) 8))

/-- `scheduleReconnect()` (src/neuro-connection.js:99-112): clear any
stored pending timer, increment `reconnectAttempts`, schedule a single
fresh timer with the backoff delay. -/
def scheduleReconnect (s : ConnState) : ConnState × List Eff :=
  let cleared :=
    match s.reconnectTimer with
    | some id =>
        ({ s with liveReconnect := s.liveReconnect.erase id },
         [Eff.timerCleared id])
    | none => (s, [])
  let s1 := cleared.1
  let attempts := s1.reconnectAttempts + 1
  let fresh := s1.nextTimer
  ({ s1 with reconnectAttempts := attempts,
             reconnectTimer := some fresh,
             liveReconnect := s1.liveReconnect ++ [fresh],
             nextTimer := fresh + 1 },
   cleared.2 ++
     [Eff.log "info" "Will attempt to reconnect",
      Eff.timerSet fresh (backoffDelay attempts)])

/-- `sendStartup()` (src/neuro-connection.js:114-125). -/
def sendStartup (s : ConnState) : List Eff :=
  if s.ws = some WsReady.open then
    [Eff.wsSend { command := some "startup", game := some GAME_NAME, data := none },
     Eff.log "info" "Sent startup message to Neuro"]
  else
    [Eff.log "warn" "Cannot send startup message - WebSocket not ready"]

/-- `handleOpen()` (src/neuro-connection.js:35-53).  State updates come
first (lines 36-39), then the effects in source order; note that the
`reconnectAttempts > 1` test at line 49 reads the field that line 37
has already reset to 0. -/
def handleOpen (now : Nat) (s : ConnState) : ConnState × List Eff :=
  let s1 := { s with isConnected := true,
                     reconnectAttempts := 0,
                     connectionLost := false,
                     lastMessageTime := some now }
  let effs1 :=
    [Eff.log "info" "Connected to Neuro API", Eff.popupConn true] ++
    sendStartup s1 ++
    [Eff.broadcastStatus true true] ++
    (if s1.reconnectAttempts > 1 then [Eff.notifyReconnect] else [])
  let p := startHeartbeat s1
  (p.1, effs1 ++ p.2)

/-- `handleClose()` (src/neuro-connection.js:54-74). -/
def handleClose (s : ConnState) : ConnState × List Eff :=
  let wasConnected := s.isConnected
  let s1 := { s with isConnected := false }
  let ph := stopHeartbeat s1
  let s2 := ph.1
  let branch :=
    if wasConnected then
      if !s2.connectionLost && decide (s2.reconnectAttempts ≥ MAX_RECONNECT_ATTEMPTS) then
        ({ s2 with connectionLost := true },
         [Eff.log "warn" "Disconnected from Neuro API", Eff.popupConn false,
          Eff.broadcastStatus false true, Eff.notifyDisconnect])
      else
        (s2,
         [Eff.log "warn" "Disconnected from Neuro API", Eff.popupConn false,
          Eff.broadcastStatus false false])
    else (s2, [])
  let pr := scheduleReconnect branch.1
  (pr.1, ph.2 ++ branch.2 ++ pr.2)

/-- `connect()` (src/neuro-connection.js:19-28): constructing the
WebSocket either succeeds (a fresh socket in `CONNECTING` state is
stored) or throws, in which case `this.ws` is left unchanged and
`scheduleReconnect()` runs. -/
def connect (ok : Bool) (s : ConnState) : ConnState × List Eff :=
  if ok then
    ({ s with ws := some WsReady.connecting },
     [Eff.log "info" "Attempting to connect to Neuro API..."])
  else
    let p := scheduleReconnect s
    (p.1, Eff.log "info" "Attempting to connect to Neuro API..." ::
          Eff.log "error" "Error connecting to WebSocket:" :: p.2)

/-- `disconnect()` (src/neuro-connection.js:196-207). -/
def disconnect (s : ConnState) : ConnState × List Eff :=
  let ph := stopHeartbeat s
  let s1 := ph.1
  let pt :=
    match s1.reconnectTimer with
    | some id =>
        ({ s1 with reconnectTimer := none,
                   liveReconnect := s1.liveReconnect.erase id },
         [Eff.timerCleared id])
    | none => (s1, [])
  let s2 := pt.1
  let pw :=
    match s2.ws with
    | some _ => ({ s2 with ws := none }, [Eff.wsClose])
    | none => (s2, [])
  ({ pw.1 with isConnected := false }, ph.2 ++ pt.2 ++ pw.2)

/-- `sendToNeuro(msg)` (src/neuro-connection.js:127-144).
`this.ws.readyState` dereferences `this.ws`, so the call throws
(`Except.error`) when `isConnected` is true but no socket is stored;
otherwise it returns the boolean the method returns together with the
effects it performs. -/
def sendToNeuro (s : ConnState) (msg : Frame) : Except Unit (Bool × List Eff) :=
  if s.isConnected then
    match s.ws with
    | none => Except.error ()
    | some w =>
      if w = WsReady.open then
        if jsFalsyStr msg.command then
          Except.ok (false, [Eff.log "error" "Invalid message format: missing command"])
        else
          let msg1 :=
            if msg.game.isNone then { msg with game := some GAME_NAME } else msg
          Except.ok (true, [Eff.wsSend msg1, Eff.log "info" "Sent to Neuro"])
      else
        Except.ok (false, [Eff.log "warn" "Cannot send message, not connected to Neuro API"])
  else
    Except.ok (false, [Eff.log "warn" "Cannot send message, not connected to Neuro API"])

/-! ## Events and traces

External events delivered to the instance by the runtime: the socket
stored in `this.ws` finishing its handshake (`openEvt`, only possible
while a socket is in `CONNECTING` state), a close event from any socket
this instance ever created (`closeEvt` — close events are delivered
even after `disconnect()` nulled the field, because the handlers stay
attached to the underlying socket), a pending reconnect timer firing
(`timerFire ok`, where `ok` says whether the `new WebSocket`
constructor inside `connect()` succeeds), and an explicit
`disconnect()` call. -/

/-- Externally generated events driving one `NeuroConnection`. -/
inductive Event where
  | openEvt (now : Nat)
  | closeEvt
  | timerFire (ok : Bool)
  | disconnectEvt
deriving DecidableEq, Repr

/-- One step of the event loop. -/
def step (s : ConnState) (e : Event) : ConnState × List Eff :=
  match e with
  | Event.openEvt now =>
      match s.ws with
      | some WsReady.connecting => handleOpen now { s with ws := some WsReady.open }
      | _ => (s, [])
  | Event.closeEvt =>
      handleClose { s with ws := s.ws.map fun _ => WsReady.closed }
  | Event.timerFire ok =>
      match s.liveReconnect with
      | [] => (s, [])
      | id :: _ => connect ok { s with liveReconnect := s.liveReconnect.erase id }
  | Event.disconnectEvt => disconnect s

/-- Fold `step` over a list of events, accumulating effects. -/
def runTrace (s : ConnState) : List Event → ConnState × List Eff
  | [] => (s, [])
  | e :: es =>
      let p := step s e
      let q := runTrace p.1 es
      (q.1, p.2 ++ q.2)

/-- The state right after `new BackgroundService()` ran `initialize()`,
whose `connect()` stored a fresh connecting socket
(src/background-main.js:214-219). -/
def initState : ConnState :=
  { ws := some WsReady.connecting
    isConnected := false
    lastMessageTime := none
    reconnectAttempts := 0
    reconnectTimer := none
    connectionLost := false
    heartbeatInterval := none
    liveReconnect := []
    liveHeartbeat := []
    nextTimer := 0 }

/-! ## Inductive invariant of the event loop -/

/-- Pending-reconnect-timer invariant: the runtime holds no reconnect
timer, or exactly the one stored in `reconnectTimer`. -/
def RTInv (s : ConnState) : Prop :=
  s.liveReconnect = [] ∨ ∃ id, s.liveReconnect = [id] ∧ s.reconnectTimer = some id

/-- Heartbeat-timer invariant: the runtime holds no heartbeat interval,
or exactly the one stored in `heartbeatInterval`. -/
def HBInv (s : ConnState) : Prop :=
  s.liveHeartbeat = [] ∨ ∃ id, s.liveHeartbeat = [id] ∧ s.heartbeatInterval = some id

/-- While connected, a socket is stored and open, `reconnectAttempts`
is zero and no reconnect timer is pending. -/
def ConnInv (s : ConnState) : Prop :=
  s.isConnected = true → s.ws = some WsReady.open ∧ s.reconnectAttempts = 0 ∧ s.liveReconnect = []

/-- While a socket is handshaking no reconnect timer is pending and the
session is not yet marked connected. -/
def CngInv (s : ConnState) : Prop :=
  s.ws = some WsReady.connecting → s.liveReconnect = [] ∧ s.isConnected = false

/-- The conjunction of all invariants preserved by `step`. -/
def Inv (s : ConnState) : Prop :=
  RTInv s ∧ HBInv s ∧ ConnInv s ∧ CngInv s

theorem inv_init : Inv initState := by
  refine ⟨Or.inl rfl, Or.inl rfl, ?_, ?_⟩ <;> intro h <;> simp_all [initState, ConnInv, CngInv]

end NeuroLingo

namespace NeuroLingo

theorem stopHeartbeat_eq (s : ConnState) (h : HBInv s) :
    (stopHeartbeat s).1 = { s with heartbeatInterval := none, liveHeartbeat := [] } := by
  rcases h with h | ⟨id, h1, h2⟩
  · rcases hH : s.heartbeatInterval with _ | id
    · cases s; simp_all [stopHeartbeat]
    · cases s; simp_all [stopHeartbeat]
  · cases s; simp_all [stopHeartbeat, List.erase]

theorem startHeartbeat_eq (s : ConnState) (h : HBInv s) :
    (startHeartbeat s).1 =
      { s with heartbeatInterval := some s.nextTimer,
               liveHeartbeat := [s.nextTimer],
               nextTimer := s.nextTimer + 1 } := by
  have h1 := stopHeartbeat_eq s h
  simp [startHeartbeat, h1]

theorem scheduleReconnect_eq (s : ConnState) (h : RTInv s) :
    (scheduleReconnect s).1 =
      { s with reconnectAttempts := s.reconnectAttempts + 1,
               reconnectTimer := some s.nextTimer,
               liveReconnect := [s.nextTimer],
               nextTimer := s.nextTimer + 1 } := by
  rcases h with h | ⟨id, h1, h2⟩
  · rcases hR : s.reconnectTimer with _ | id
    · cases s; simp_all [scheduleReconnect]
    · cases s; simp_all [scheduleReconnect]
  · cases s; simp_all [scheduleReconnect, List.erase]

end NeuroLingo

namespace NeuroLingo

theorem countEff_append (p : Eff → Bool) (a b : List Eff) :
    countEff p (a ++ b) = countEff p a + countEff p b := by
  induction a with
  | nil => simp [countEff]
  | cons x xs ih => simp [countEff, ih]; omega

theorem handleOpen_eq (now : Nat) (s : ConnState) (h : HBInv s) :
    (handleOpen now s).1 =
      { s with isConnected := true, reconnectAttempts := 0,
               connectionLost := false, lastMessageTime := some now,
               heartbeatInterval := some s.nextTimer,
               liveHeartbeat := [s.nextTimer],
               nextTimer := s.nextTimer + 1 } := by
  have h1 := startHeartbeat_eq
    { s with isConnected := true, reconnectAttempts := 0,
             connectionLost := false, lastMessageTime := some now } h
  simp [handleOpen, h1]

theorem handleClose_eq (s : ConnState) (hRT : RTInv s) (hHB : HBInv s)
    (hra : s.isConnected = true → s.reconnectAttempts = 0) :
    (handleClose s).1 =
      { s with isConnected := false, heartbeatInterval := none, liveHeartbeat := [],
               reconnectAttempts := s.reconnectAttempts + 1,
               reconnectTimer := some s.nextTimer,
               liveReconnect := [s.nextTimer],
               nextTimer := s.nextTimer + 1 } := by
  obtain ⟨ws, conn, lmt, ra, rt, cl, hb, lr, lh, nt⟩ := s
  cases conn with
  | false =>
      have hstop := stopHeartbeat_eq
        { ws := ws, isConnected := false, lastMessageTime := lmt, reconnectAttempts := ra,
          reconnectTimer := rt, connectionLost := cl, heartbeatInterval := hb,
          liveReconnect := lr, liveHeartbeat := lh, nextTimer := nt } hHB
      have hsched := scheduleReconnect_eq
        { ws := ws, isConnected := false, lastMessageTime := lmt, reconnectAttempts := ra,
          reconnectTimer := rt, connectionLost := cl, heartbeatInterval := none,
          liveReconnect := lr, liveHeartbeat := [], nextTimer := nt } hRT
      simp [handleClose, hstop, hsched]
  | true =>
      have h0 : ra = 0 := hra rfl
      subst h0
      have hstop := stopHeartbeat_eq
        { ws := ws, isConnected := false, lastMessageTime := lmt, reconnectAttempts := 0,
          reconnectTimer := rt, connectionLost := cl, heartbeatInterval := hb,
          liveReconnect := lr, liveHeartbeat := lh, nextTimer := nt } hHB
      have hsched := scheduleReconnect_eq
        { ws := ws, isConnected := false, lastMessageTime := lmt, reconnectAttempts := 0,
          reconnectTimer := rt, connectionLost := cl, heartbeatInterval := none,
          liveReconnect := lr, liveHeartbeat := [], nextTimer := nt } hRT
      simp [handleClose, hstop, hsched, MAX_RECONNECT_ATTEMPTS]


theorem count_stopHeartbeat (p : Eff → Bool) (hp : ∀ id, p (Eff.heartbeatCleared id) = false)
    (s : ConnState) : countEff p (stopHeartbeat s).2 = 0 := by
  rcases h : s.heartbeatInterval with _ | id <;> simp [stopHeartbeat, h, countEff, hp]

theorem count_startHeartbeat (p : Eff → Bool)
    (hp : ∀ id, p (Eff.heartbeatCleared id) = false)
    (hq : ∀ id, p (Eff.heartbeatSet id) = false)
    (s : ConnState) : countEff p (startHeartbeat s).2 = 0 := by
  simp [startHeartbeat, countEff_append, count_stopHeartbeat p hp, countEff, hq]

theorem count_scheduleReconnect (p : Eff → Bool)
    (hp : ∀ id, p (Eff.timerCleared id) = false)
    (hq : ∀ id d, p (Eff.timerSet id d) = false)
    (hl : ∀ l m, p (Eff.log l m) = false)
    (s : ConnState) : countEff p (scheduleReconnect s).2 = 0 := by
  rcases h : s.reconnectTimer with _ | id <;>
    simp [scheduleReconnect, h, countEff, countEff_append, hp, hq, hl]

theorem count_sendStartup (p : Eff → Bool)
    (hl : ∀ l m, p (Eff.log l m) = false)
    (hw : ∀ f, p (Eff.wsSend f) = false)
    (s : ConnState) : countEff p (sendStartup s) = 0 := by
  by_cases h : s.ws = some WsReady.open <;> simp [sendStartup, h, countEff, hl, hw]


theorem count_disc_stop (s : ConnState) : countEff isNotifyDisconnect (stopHeartbeat s).2 = 0 :=
  count_stopHeartbeat _ (fun _ => rfl) s

theorem count_disc_start (s : ConnState) : countEff isNotifyDisconnect (startHeartbeat s).2 = 0 :=
  count_startHeartbeat _ (fun _ => rfl) (fun _ => rfl) s

theorem count_disc_sched (s : ConnState) : countEff isNotifyDisconnect (scheduleReconnect s).2 = 0 :=
  count_scheduleReconnect _ (fun _ => rfl) (fun _ _ => rfl) (fun _ _ => rfl) s

theorem count_rec_stop (s : ConnState) : countEff isNotifyReconnect (stopHeartbeat s).2 = 0 :=
  count_stopHeartbeat _ (fun _ => rfl) s

theorem count_rec_start (s : ConnState) : countEff isNotifyReconnect (startHeartbeat s).2 = 0 :=
  count_startHeartbeat _ (fun _ => rfl) (fun _ => rfl) s

theorem count_rec_sched (s : ConnState) : countEff isNotifyReconnect (scheduleReconnect s).2 = 0 :=
  count_scheduleReconnect _ (fun _ => rfl) (fun _ _ => rfl) (fun _ _ => rfl) s

@[simp] theorem stopHeartbeat_ws (s : ConnState) : (stopHeartbeat s).1.ws = s.ws := by
  rcases h : s.heartbeatInterval with _ | id <;> simp [stopHeartbeat, h]

@[simp] theorem stopHeartbeat_isConnected (s : ConnState) :
    (stopHeartbeat s).1.isConnected = s.isConnected := by
  rcases h : s.heartbeatInterval with _ | id <;> simp [stopHeartbeat, h]

@[simp] theorem stopHeartbeat_lastMessageTime (s : ConnState) :
    (stopHeartbeat s).1.lastMessageTime = s.lastMessageTime := by
  rcases h : s.heartbeatInterval with _ | id <;> simp [stopHeartbeat, h]

@[simp] theorem stopHeartbeat_reconnectAttempts (s : ConnState) :
    (stopHeartbeat s).1.reconnectAttempts = s.reconnectAttempts := by
  rcases h : s.heartbeatInterval with _ | id <;> simp [stopHeartbeat, h]

@[simp] theorem stopHeartbeat_reconnectTimer (s : ConnState) :
    (stopHeartbeat s).1.reconnectTimer = s.reconnectTimer := by
  rcases h : s.heartbeatInterval with _ | id <;> simp [stopHeartbeat, h]

@[simp] theorem stopHeartbeat_connectionLost (s : ConnState) :
    (stopHeartbeat s).1.connectionLost = s.connectionLost := by
  rcases h : s.heartbeatInterval with _ | id <;> simp [stopHeartbeat, h]

@[simp] theorem stopHeartbeat_liveReconnect (s : ConnState) :
    (stopHeartbeat s).1.liveReconnect = s.liveReconnect := by
  rcases h : s.heartbeatInterval with _ | id <;> simp [stopHeartbeat, h]

@[simp] theorem stopHeartbeat_nextTimer (s : ConnState) :
    (stopHeartbeat s).1.nextTimer = s.nextTimer := by
  rcases h : s.heartbeatInterval with _ | id <;> simp [stopHeartbeat, h]

@[simp] theorem stopHeartbeat_heartbeatInterval (s : ConnState) :
    (stopHeartbeat s).1.heartbeatInterval = none := by
  rcases h : s.heartbeatInterval with _ | id <;> simp [stopHeartbeat, h]

@[simp] theorem scheduleReconnect_ws (s : ConnState) : (scheduleReconnect s).1.ws = s.ws := by
  rcases h : s.reconnectTimer with _ | id <;> simp [scheduleReconnect, h]

@[simp] theorem scheduleReconnect_isConnected (s : ConnState) :
    (scheduleReconnect s).1.isConnected = s.isConnected := by
  rcases h : s.reconnectTimer with _ | id <;> simp [scheduleReconnect, h]

@[simp] theorem scheduleReconnect_lastMessageTime (s : ConnState) :
    (scheduleReconnect s).1.lastMessageTime = s.lastMessageTime := by
  rcases h : s.reconnectTimer with _ | id <;> simp [scheduleReconnect, h]

@[simp] theorem scheduleReconnect_reconnectAttempts (s : ConnState) :
    (scheduleReconnect s).1.reconnectAttempts = s.reconnectAttempts + 1 := by
  rcases h : s.reconnectTimer with _ | id <;> simp [scheduleReconnect, h]

@[simp] theorem scheduleReconnect_reconnectTimer (s : ConnState) :
    (scheduleReconnect s).1.reconnectTimer = some s.nextTimer := by
  rcases h : s.reconnectTimer with _ | id <;> simp [scheduleReconnect, h]

@[simp] theorem scheduleReconnect_connectionLost (s : ConnState) :
    (scheduleReconnect s).1.connectionLost = s.connectionLost := by
  rcases h : s.reconnectTimer with _ | id <;> simp [scheduleReconnect, h]

@[simp] theorem scheduleReconnect_heartbeatInterval (s : ConnState) :
    (scheduleReconnect s).1.heartbeatInterval = s.heartbeatInterval := by
  rcases h : s.reconnectTimer with _ | id <;> simp [scheduleReconnect, h]

@[simp] theorem scheduleReconnect_liveHeartbeat (s : ConnState) :
    (scheduleReconnect s).1.liveHeartbeat = s.liveHeartbeat := by
  rcases h : s.reconnectTimer with _ | id <;> simp [scheduleReconnect, h]

@[simp] theorem scheduleReconnect_nextTimer (s : ConnState) :
    (scheduleReconnect s).1.nextTimer = s.nextTimer + 1 := by
  rcases h : s.reconnectTimer with _ | id <;> simp [scheduleReconnect, h]

theorem scheduleReconnect_timerSet (s : ConnState) :
    Eff.timerSet s.nextTimer (backoffDelay (s.reconnectAttempts + 1)) ∈ (scheduleReconnect s).2 := by
  rcases h : s.reconnectTimer with _ | id <;> simp [scheduleReconnect, h]


theorem handleClose_reconnectAttempts (s : ConnState) :
    (handleClose s).1.reconnectAttempts = s.reconnectAttempts + 1 := by
  obtain ⟨ws, conn, lmt, ra, rt, cl, hb, lr, lh, nt⟩ := s
  cases conn <;> simp [handleClose] <;> split <;> simp

theorem handleClose_timerSet (s : ConnState) :
    ∃ id, Eff.timerSet id (backoffDelay (s.reconnectAttempts + 1)) ∈ (handleClose s).2 := by
  obtain ⟨ws, conn, lmt, ra, rt, cl, hb, lr, lh, nt⟩ := s
  refine ⟨nt, ?_⟩
  rcases hb with _ | hid <;> rcases rt with _ | rid <;> cases conn <;>
    simp [handleClose, stopHeartbeat, scheduleReconnect] <;> split <;> simp


theorem count_disc_handleClose (s : ConnState)
    (hra : s.isConnected = true → s.reconnectAttempts = 0) :
    countEff isNotifyDisconnect (handleClose s).2 = 0 := by
  obtain ⟨ws, conn, lmt, ra, rt, cl, hb, lr, lh, nt⟩ := s
  cases conn with
  | false =>
      simp [handleClose, countEff_append, count_disc_stop, count_disc_sched, countEff]
  | true =>
      have h0 : ra = 0 := hra rfl
      subst h0
      simp [handleClose, countEff_append, count_disc_stop, count_disc_sched, countEff,
            isNotifyDisconnect, MAX_RECONNECT_ATTEMPTS]

theorem count_rec_handleClose (s : ConnState) :
    countEff isNotifyReconnect (handleClose s).2 = 0 := by
  obtain ⟨ws, conn, lmt, ra, rt, cl, hb, lr, lh, nt⟩ := s
  cases conn with
  | false =>
      simp [handleClose, countEff_append, count_rec_stop, count_rec_sched, countEff]
  | true =>
      simp only [handleClose]
      split <;> (try split) <;>
        simp_all [countEff_append, count_rec_stop, count_rec_sched, countEff, isNotifyReconnect]

theorem count_disc_handleOpen (now : Nat) (s : ConnState) :
    countEff isNotifyDisconnect (handleOpen now s).2 = 0 := by
  simp [handleOpen, countEff_append, count_disc_start, countEff, isNotifyDisconnect,
        count_sendStartup isNotifyDisconnect (fun _ _ => rfl) (fun _ => rfl)]

theorem count_rec_handleOpen (now : Nat) (s : ConnState) :
    countEff isNotifyReconnect (handleOpen now s).2 = 0 := by
  simp [handleOpen, countEff_append, count_rec_start, countEff, isNotifyReconnect,
        count_sendStartup isNotifyReconnect (fun _ _ => rfl) (fun _ => rfl)]

theorem count_disc_connect (ok : Bool) (s : ConnState) :
    countEff isNotifyDisconnect (connect ok s).2 = 0 := by
  cases ok <;>
    simp [connect, countEff_append, count_disc_sched, countEff, isNotifyDisconnect]

theorem count_rec_connect (ok : Bool) (s : ConnState) :
    countEff isNotifyReconnect (connect ok s).2 = 0 := by
  cases ok <;>
    simp [connect, countEff_append, count_rec_sched, countEff, isNotifyReconnect]

theorem count_disc_disconnect (s : ConnState) :
    countEff isNotifyDisconnect (disconnect s).2 = 0 := by
  obtain ⟨ws, conn, lmt, ra, rt, cl, hb, lr, lh, nt⟩ := s
  rcases hb with _ | hid <;> rcases rt with _ | rid <;> rcases ws with _ | w <;>
    simp [disconnect, stopHeartbeat, countEff_append, countEff, isNotifyDisconnect]

theorem count_rec_disconnect (s : ConnState) :
    countEff isNotifyReconnect (disconnect s).2 = 0 := by
  obtain ⟨ws, conn, lmt, ra, rt, cl, hb, lr, lh, nt⟩ := s
  rcases hb with _ | hid <;> rcases rt with _ | rid <;> rcases ws with _ | w <;>
    simp [disconnect, stopHeartbeat, countEff_append, countEff, isNotifyReconnect]

theorem count_disc_step (s : ConnState) (e : Event)
    (hra : s.isConnected = true → s.reconnectAttempts = 0) :
    countEff isNotifyDisconnect (step s e).2 = 0 := by
  cases e with
  | openEvt now =>
      rcases hw : s.ws with _ | w
      · simp [step, hw, countEff]
      · cases w <;> simp [step, hw, countEff, count_disc_handleOpen]
  | closeEvt =>
      exact count_disc_handleClose _ (by simpa using hra)
  | timerFire ok =>
      rcases hl : s.liveReconnect with _ | ⟨id, rest⟩
      · simp [step, hl, countEff]
      · simp [step, hl, count_disc_connect]
  | disconnectEvt => simp [step, count_disc_disconnect]

theorem count_rec_step (s : ConnState) (e : Event) :
    countEff isNotifyReconnect (step s e).2 = 0 := by
  cases e with
  | openEvt now =>
      rcases hw : s.ws with _ | w
      · simp [step, hw, countEff]
      · cases w <;> simp [step, hw, countEff, count_rec_handleOpen]
  | closeEvt => exact count_rec_handleClose _
  | timerFire ok =>
      rcases hl : s.liveReconnect with _ | ⟨id, rest⟩
      · simp [step, hl, countEff]
      · simp [step, hl, count_rec_connect]
  | disconnectEvt => simp [step, count_rec_disconnect]


theorem disconnect_eq (s : ConnState) (hRT : RTInv s) (hHB : HBInv s) :
    (disconnect s).1 =
      { s with ws := none, isConnected := false,
               heartbeatInterval := none, liveHeartbeat := [],
               reconnectTimer := none, liveReconnect := [] } := by
  obtain ⟨ws, conn, lmt, ra, rt, cl, hb, lr, lh, nt⟩ := s
  rcases hHB with hH | ⟨hid, hH1, hH2⟩ <;> rcases hRT with hR | ⟨rid, hR1, hR2⟩ <;>
    rcases ws with _ | w <;> rcases hhb : hb with _ | hid2 <;> rcases hrt : rt with _ | rid2 <;>
      simp_all [disconnect, stopHeartbeat]

theorem inv_step (s : ConnState) (e : Event) (h : Inv s) : Inv (step s e).1 := by
  obtain ⟨hRT, hHB, hConn, hCng⟩ := h
  cases e with
  | openEvt now =>
      rcases hw : s.ws with _ | w
      · simpa [step, hw] using ⟨hRT, hHB, hConn, hCng⟩
      · cases w
        · obtain ⟨hlr, hcf⟩ := hCng hw
          have hHB2 : HBInv { s with ws := some WsReady.open } := hHB
          have heq := handleOpen_eq now { s with ws := some WsReady.open } hHB2
          simp only [step, hw]
          rw [heq]
          refine ⟨Or.inl ?_, Or.inr ⟨s.nextTimer, rfl, rfl⟩, ?_, ?_⟩
          · simpa using hlr
          · intro _; exact ⟨rfl, rfl, by simpa using hlr⟩
          · intro hcontra; simp at hcontra
        · simpa [step, hw] using ⟨hRT, hHB, hConn, hCng⟩
        · simpa [step, hw] using ⟨hRT, hHB, hConn, hCng⟩
  | closeEvt =>
      have hRT2 : RTInv { s with ws := s.ws.map fun _ => WsReady.closed } := hRT
      have hHB2 : HBInv { s with ws := s.ws.map fun _ => WsReady.closed } := hHB
      have hra2 : ({ s with ws := s.ws.map fun _ => WsReady.closed } : ConnState).isConnected = true →
          ({ s with ws := s.ws.map fun _ => WsReady.closed } : ConnState).reconnectAttempts = 0 := by
        intro hc
        exact (hConn hc).2.1
      have heq := handleClose_eq _ hRT2 hHB2 hra2
      simp only [step]
      rw [heq]
      refine ⟨Or.inr ⟨s.nextTimer, rfl, rfl⟩, Or.inl rfl, ?_, ?_⟩
      · intro hcontra; simp at hcontra
      · intro hcontra
        simp only at hcontra
        rcases hws : s.ws with _ | w <;> rw [hws] at hcontra <;> simp at hcontra
  | timerFire ok =>
      rcases hl : s.liveReconnect with _ | ⟨id, rest⟩
      · simpa [step, hl] using ⟨hRT, hHB, hConn, hCng⟩
      · have hone : s.liveReconnect = [id] ∧ s.reconnectTimer = some id := by
          rcases hRT with hR | ⟨rid, hR1, hR2⟩
          · rw [hl] at hR; cases hR
          · rw [hl] at hR1
            have hpair : id = rid ∧ rest = [] := by
              injection hR1 with h1 h2
              exact ⟨h1, h2⟩
            obtain ⟨rfl, rfl⟩ := hpair
            exact ⟨hl, hR2⟩
        have hrest : rest = [] := by
          have h2 := hone.1
          rw [hl] at h2
          injection h2
        subst hrest
        have hnc : s.isConnected = false := by
          cases hc : s.isConnected with
          | false => rfl
          | true =>
              have h3 := (hConn hc).2.2
              rw [hl] at h3; cases h3
        have hnw : s.ws ≠ some WsReady.connecting := by
          intro hw
          have h4 := (hCng hw).1
          rw [hl] at h4; cases h4
        cases ok with
        | true =>
            simp only [step, hl, connect, if_true, List.erase_cons_head]
            refine ⟨Or.inl rfl, hHB, ?_, ?_⟩
            · intro hcontra; simp only at hcontra; rw [hnc] at hcontra; cases hcontra
            · intro _; exact ⟨rfl, by simpa using hnc⟩
        | false =>
            have hRT3 : RTInv { s with liveReconnect := [] } := Or.inl rfl
            have heq := scheduleReconnect_eq { s with liveReconnect := [] } hRT3
            simp only [step, hl, connect, Bool.false_eq_true, if_false, List.erase_cons_head]
            rw [heq]
            refine ⟨Or.inr ⟨s.nextTimer, rfl, rfl⟩, hHB, ?_, ?_⟩
            · intro hcontra; simp only at hcontra; rw [hnc] at hcontra; cases hcontra
            · intro hcontra; simp only at hcontra; exact absurd hcontra hnw
  | disconnectEvt =>
      have heq := disconnect_eq s hRT hHB
      simp only [step]
      rw [heq]
      refine ⟨Or.inl rfl, Or.inl rfl, ?_, ?_⟩
      · intro hcontra; simp at hcontra
      · intro hcontra; simp at hcontra


theorem inv_runTrace (s : ConnState) (es : List Event) (h : Inv s) :
    Inv (runTrace s es).1 := by
  induction es generalizing s with
  | nil => simpa [runTrace] using h
  | cons e es ih =>
      simp only [runTrace]
      exact ih _ (inv_step s e h)

theorem count_disc_runTrace (s : ConnState) (es : List Event) (h : Inv s) :
    countEff isNotifyDisconnect (runTrace s es).2 = 0 := by
  induction es generalizing s with
  | nil => simp [runTrace, countEff]
  | cons e es ih =>
      simp only [runTrace, countEff_append]
      have h1 := count_disc_step s e (fun hc => (h.2.2.1 hc).2.1)
      have h2 := ih _ (inv_step s e h)
      omega

theorem count_rec_runTrace (s : ConnState) (es : List Event) :
    countEff isNotifyReconnect (runTrace s es).2 = 0 := by
  induction es generalizing s with
  | nil => simp [runTrace, countEff]
  | cons e es ih =>
      simp only [runTrace, countEff_append]
      have h1 := count_rec_step s e
      have h2 := ih (step s e).1
      omega


theorem handleClose_reconnectTimer (s : ConnState) :
    (handleClose s).1.reconnectTimer = some s.nextTimer := by
  obtain ⟨ws, conn, lmt, ra, rt, cl, hb, lr, lh, nt⟩ := s
  cases conn <;> simp only [handleClose] <;> split <;> (try split) <;> simp

/-- Events of the C1 scenario: the connection opens, then closes, five
consecutive times, the reconnect timer firing successfully in between. -/
def c1Scenario : List Event :=
  [Event.openEvt 0, Event.closeEvt, Event.timerFire true,
   Event.openEvt 1, Event.closeEvt, Event.timerFire true,
   Event.openEvt 2, Event.closeEvt, Event.timerFire true,
   Event.openEvt 3, Event.closeEvt, Event.timerFire true,
   Event.openEvt 4, Event.closeEvt]

/-- C1: the claim says the terminal "connection lost" notification fires
exactly once, on the fifth closure, when the connection opens and closes
five consecutive times with MAX_RECONNECT_ATTEMPTS = 5.  In fact the
notification never fires: on this scenario it fires zero times, and more
generally no event trace whatsoever makes `handleClose` emit it, because
`handleOpen` resets `reconnectAttempts` to 0, `handleClose` tests the
maximum before `scheduleReconnect` increments, and closes of sockets
that never connected skip the test entirely. -/
theorem c1_connection_lost_never_fires :
    countEff isNotifyDisconnect (runTrace initState c1Scenario).2 = 0 ∧
    ∀ es : List Event, countEff isNotifyDisconnect (runTrace initState es).2 = 0 := by
  refine ⟨by decide, ?_⟩
  intro es
  exact count_disc_runTrace initState es inv_init

/-- C2 counterexample: starting from the connected state, calling
`disconnect()` and then delivering the socket close event (which the
runtime does deliver, the handlers stay attached) leaves a pending
reconnect timer, so an autonomous reconnection IS scheduled after
`disconnect()` returned. -/
theorem c2_close_after_disconnect_schedules_timer :
    (step (disconnect (runTrace initState [Event.openEvt 0]).1).1 Event.closeEvt).1.liveReconnect ≠ [] ∧
    (step (disconnect (runTrace initState [Event.openEvt 0]).1).1 Event.closeEvt).1.reconnectTimer ≠ none := by
  constructor <;> decide

/-- C2 amended: `disconnect()` is idempotent, and one call clears the
pending reconnect timer, stops the heartbeat interval, closes and nulls
the socket and marks the session disconnected; however, a socket close
event delivered after `disconnect()` returns still runs `handleClose`,
which unconditionally schedules a fresh reconnect timer, so autonomous
reconnection is not permanently prevented. -/
theorem c2_disconnect_spec :
    (∀ s : ConnState, (disconnect (disconnect s).1).1 = (disconnect s).1) ∧
    (∀ es : List Event,
        (disconnect (runTrace initState es).1).1.liveReconnect = [] ∧
        (disconnect (runTrace initState es).1).1.liveHeartbeat = [] ∧
        (disconnect (runTrace initState es).1).1.reconnectTimer = none ∧
        (disconnect (runTrace initState es).1).1.heartbeatInterval = none ∧
        (disconnect (runTrace initState es).1).1.ws = none ∧
        (disconnect (runTrace initState es).1).1.isConnected = false) ∧
    (∀ es : List Event,
        (step (disconnect (runTrace initState es).1).1 Event.closeEvt).1.reconnectTimer ≠ none) := by
  refine ⟨?_, ?_, ?_⟩
  · intro s
    obtain ⟨ws, conn, lmt, ra, rt, cl, hb, lr, lh, nt⟩ := s
    rcases hb with _ | hid <;> rcases rt with _ | rid <;> rcases ws with _ | w <;>
      simp [disconnect, stopHeartbeat]
  · intro es
    have hInv := inv_runTrace initState es inv_init
    have heq := disconnect_eq _ hInv.1 hInv.2.1
    rw [heq]
    exact ⟨rfl, rfl, rfl, rfl, rfl, rfl⟩
  · intro es
    simp only [step]
    rw [handleClose_reconnectTimer]
    simp

/-- C3: every close event increments `reconnectAttempts` and schedules a
retry whose delay is `min(60000, 10000 * 1.5^min(attempts-1, 8))`; the
delays for attempts 1..4 are 10000, 15000, 22500 and 33750 ms, the
delay is monotonically non-decreasing in the attempt count, and it is
always bounded by MAX_RECONNECT_INTERVAL = 60000 ms. -/
theorem c3_backoff_spec :
    (∀ s : ConnState,
        (handleClose s).1.reconnectAttempts = s.reconnectAttempts + 1 ∧
        ∃ id, Eff.timerSet id (backoffDelay (s.reconnectAttempts + 1)) ∈ (handleClose s).2) ∧
    backoffDelay 1 = 10000 ∧ backoffDelay 2 = 15000 ∧
    backoffDelay 3 = 22500 ∧ backoffDelay 4 = 33750 ∧
    (∀ a k : Nat, backoffDelay a ≤ backoffDelay (a + k)) ∧
    (∀ a : Nat, backoffDelay a ≤ MAX_RECONNECT_INTERVAL) := by
  refine ⟨fun s => ⟨handleClose_reconnectAttempts s, handleClose_timerSet s⟩, ?_, ?_, ?_, ?_, ?_, ?_⟩
  · norm_num [backoffDelay, RECONNECT_INTERVAL, MAX_RECONNECT_INTERVAL]
  · norm_num [backoffDelay, RECONNECT_INTERVAL, MAX_RECONNECT_INTERVAL]
  · norm_num [backoffDelay, RECONNECT_INTERVAL, MAX_RECONNECT_INTERVAL]
  · norm_num [backoffDelay, RECONNECT_INTERVAL, MAX_RECONNECT_INTERVAL]
  · intro a k
    unfold backoffDelay
    apply min_le_min le_rfl
    apply mul_le_mul_of_nonneg_left ?_ (by norm_num [RECONNECT_INTERVAL])
    apply pow_le_pow_right₀ (by norm_num)
    exact min_le_min (Nat.sub_le_sub_right (Nat.le_add_right a k) 1) le_rfl
  · intro a
    exact min_le_left _ _

/-- C4: the claim says the "connection restored" notification is shown
whenever the socket opens with `reconnectAttempts > 1`.  In fact it is
never shown: `handleOpen` resets `reconnectAttempts` to 0 before
testing `reconnectAttempts > 1`, so the test is always false — on every
single `handleOpen` call and on every event trace the notification
count is zero. -/
theorem c4_restored_notification_never_shown :
    (∀ (now : Nat) (s : ConnState),
        countEff isNotifyReconnect (handleOpen now s).2 = 0) ∧
    (∀ es : List Event, countEff isNotifyReconnect (runTrace initState es).2 = 0) :=
  ⟨fun now s => count_rec_handleOpen now s, fun es => count_rec_runTrace initState es⟩

/-- C5: a frame whose `command` is absent or empty is rejected by
`sendToNeuro`: the call returns `false`, performs no socket write, and
does not throw, in every state reachable from the initial one. -/
theorem c5_send_rejects_empty_command (es : List Event) (m : Frame)
    (h : jsFalsyStr m.command = true) :
    ∃ effs : List Eff,
      sendToNeuro (runTrace initState es).1 m = Except.ok (false, effs) ∧
      countEff isWsSend effs = 0 := by
  have hInv := inv_runTrace initState es inv_init
  cases hc : (runTrace initState es).1.isConnected with
  | false =>
      exact ⟨[Eff.log "warn" "Cannot send message, not connected to Neuro API"],
        by simp [sendToNeuro, hc], rfl⟩
  | true =>
      obtain ⟨hw, _, _⟩ := hInv.2.2.1 hc
      exact ⟨[Eff.log "error" "Invalid message format: missing command"],
        by simp [sendToNeuro, hc, hw, h], rfl⟩

/-- Witness for C5 at a concrete reachable state and concrete frame. -/
theorem c5_send_rejects_empty_command_witness :
    ∃ effs : List Eff,
      sendToNeuro (runTrace initState []).1
        { command := none, game := none, data := none } = Except.ok (false, effs) ∧
      countEff isWsSend effs = 0 :=
  c5_send_rejects_empty_command [] { command := none, game := none, data := none } rfl

/-- C7: over every sequence of externally delivered events, at most one
reconnect retry timer is pending at any time. -/
theorem c7_at_most_one_pending_reconnect_timer (es : List Event) :
    (runTrace initState es).1.liveReconnect.length ≤ 1 := by
  have h := (inv_runTrace initState es inv_init).1
  rcases h with h | ⟨id, h, _⟩ <;> simp [h]

/-- C8: immediately after every successful socket open,
`reconnectAttempts` is 0, the connection-lost flag is cleared, the time
of the message is recorded, and exactly one heartbeat interval is
running; moreover no trace ever yields more than one heartbeat
interval. -/
theorem c8_post_open_state (es : List Event) (t : Nat)
    (h : (runTrace initState es).1.ws = some WsReady.connecting) :
    (step (runTrace initState es).1 (Event.openEvt t)).1.reconnectAttempts = 0 ∧
    (step (runTrace initState es).1 (Event.openEvt t)).1.connectionLost = false ∧
    (step (runTrace initState es).1 (Event.openEvt t)).1.lastMessageTime = some t ∧
    (step (runTrace initState es).1 (Event.openEvt t)).1.liveHeartbeat.length = 1 ∧
    ∀ es2 : List Event, (runTrace initState es2).1.liveHeartbeat.length ≤ 1 := by
  have hInv := inv_runTrace initState es inv_init
  have hHB2 : HBInv { (runTrace initState es).1 with ws := some WsReady.open } := hInv.2.1
  have heq := handleOpen_eq t { (runTrace initState es).1 with ws := some WsReady.open } hHB2
  simp only [step, h]
  rw [heq]
  refine ⟨rfl, rfl, rfl, rfl, ?_⟩
  intro es2
  have h2 := (inv_runTrace initState es2 inv_init).2.1
  rcases h2 with h2 | ⟨id, h2, _⟩ <;> simp [h2]

/-- Witness for C8 at the initial state, whose socket is connecting. -/
theorem c8_post_open_state_witness :
    (step (runTrace initState []).1 (Event.openEvt 0)).1.reconnectAttempts = 0 ∧
    (step (runTrace initState []).1 (Event.openEvt 0)).1.connectionLost = false ∧
    (step (runTrace initState []).1 (Event.openEvt 0)).1.lastMessageTime = some 0 ∧
    (step (runTrace initState []).1 (Event.openEvt 0)).1.liveHeartbeat.length = 1 ∧
    ∀ es2 : List Event, (runTrace initState es2).1.liveHeartbeat.length ≤ 1 :=
  c8_post_open_state [] 0 rfl


/-! ## MessageHandler.handleAction (src/message-handler.js:38-121)

The handler receives the decoded `action` frame's `data`, queries the
browser for the list of Duolingo tabs, and forwards the request to each
tab; `deliver` says whether `chrome.tabs.sendMessage` succeeds for a
given tab.  Only the `id` property of `data` is inspected; the rest is
forwarded verbatim and is modelled as an opaque remainder. -/

/-- Payload of an inbound `action` frame (`msg.data`). -/
structure ActionData where
  id : Option String
  rest : String
deriving DecidableEq, Repr

/-- An outbound `action/result` frame as `handleAction` builds it. -/
structure ResultFrame where
  command : String
  game : String
  id : String
  success : Bool
  message : String
deriving DecidableEq, Repr

/-- Observable effects of the message handler. -/
inductive MHEff where
  | logError (msg : String)
  | logWarn (msg : String)
  | logDebug (msg : String)
  | popupLog (level : String) (msg : String)
  | popupDuolingoActivity (active : Bool)
  | send (f : ResultFrame)
  | tabSend (tabId : Nat)
deriving DecidableEq, Repr

/-- The forwarding loop of `handleAction` (lines 72-90): one
`chrome.tabs.sendMessage` per tab, counting successful deliveries. -/
def forwardToTabs (deliver : Nat → Bool) : List Nat → Nat × List MHEff
  | [] => (0, [])
  | t :: ts =>
      let rest := forwardToTabs deliver ts
      if deliver t then
        (rest.1 + 1,
         [MHEff.tabSend t, MHEff.logDebug "Sent action to tab",
          MHEff.popupLog "info" "Sent action to tab"] ++ rest.2)
      else
        (rest.1,
         [MHEff.logWarn "Failed to send message to tab",
          MHEff.popupLog "warn" "Failed to send message to tab"] ++ rest.2)

/-- `MessageHandler.handleAction` (src/message-handler.js:38-121),
given the frame's `data`, the result of the
`chrome.tabs.query(https://www.duolingo.com/*)` lookup and the per-tab
delivery outcome. -/
def handleAction (dataOpt : Option ActionData) (tabs : List Nat)
    (deliver : Nat → Bool) : List MHEff :=
  match dataOpt with
  | none =>
      [MHEff.logError "Invalid action message: missing data or id",
       MHEff.popupLog "error" "Invalid action message: missing data or id"]
  | some d =>
      match d.id with
      | none =>
          [MHEff.logError "Invalid action message: missing data or id",
           MHEff.popupLog "error" "Invalid action message: missing data or id"]
      | some i =>
          if i = "" then
            [MHEff.logError "Invalid action message: missing data or id",
             MHEff.popupLog "error" "Invalid action message: missing data or id"]
          else
            match tabs with
            | [] =>
                [MHEff.logWarn "No Duolingo tabs found for action",
                 MHEff.popupLog "warn" "No Duolingo tabs found for action",
                 MHEff.popupDuolingoActivity false,
                 MHEff.send { command := "action/result", game := GAME_NAME, id := i,
                              success := false,
                              message := "No Duolingo tab is currently open." }]
            | _ =>
                let fw := forwardToTabs deliver tabs
                fw.2 ++
                  (if fw.1 = 0 then
                    [MHEff.logError "Failed to send action to any tabs",
                     MHEff.popupLog "error" "Failed to send action to any tabs",
                     MHEff.send { command := "action/result", game := GAME_NAME, id := i,
                                  success := false,
                                  message := "Failed to communicate with Duolingo tabs." }]
                  else [])

/-- Outbound `action/result` frames among the handler's effects. -/
def sentResults : List MHEff → List ResultFrame
  | [] => []
  | MHEff.send f :: es => f :: sentResults es
  | _ :: es => sentResults es

/-- Count of page-adapter invocations (`chrome.tabs.sendMessage`). -/
def countTabSend : List MHEff → Nat
  | [] => 0
  | MHEff.tabSend _ :: es => countTabSend es + 1
  | _ :: es => countTabSend es

/-- Whether the handler reported an error to the log channel. -/
def hasErrorLog : List MHEff → Bool
  | [] => false
  | MHEff.logError _ :: _ => true
  | _ :: es => hasErrorLog es

/-- C6: an inbound `action` frame carrying a usable `id` but finding
zero Duolingo tabs produces exactly one synthetic failure ActionResult
carrying the same `id`, a `success = false` flag and a human-readable
message, without invoking the page adapter; an `action` frame without a
usable `id` (missing `data`, missing `id`, or empty `id`) is reported
to the log channel and produces no ActionResult at all. -/
theorem c6_action_no_tabs_and_missing_id :
    (∀ (d : ActionData) (i : String) (deliver : Nat → Bool),
        d.id = some i → i ≠ "" →
        sentResults (handleAction (some d) [] deliver) =
          [{ command := "action/result", game := GAME_NAME, id := i,
             success := false, message := "No Duolingo tab is currently open." }] ∧
        countTabSend (handleAction (some d) [] deliver) = 0) ∧
    (∀ (tabs : List Nat) (deliver : Nat → Bool),
        sentResults (handleAction none tabs deliver) = [] ∧
        hasErrorLog (handleAction none tabs deliver) = true) ∧
    (∀ (d : ActionData) (tabs : List Nat) (deliver : Nat → Bool),
        jsFalsyStr d.id = true →
        sentResults (handleAction (some d) tabs deliver) = [] ∧
        hasErrorLog (handleAction (some d) tabs deliver) = true) := by
  refine ⟨?_, ?_, ?_⟩
  · intro d i deliver hid hne
    rw [show handleAction (some d) [] deliver =
        [MHEff.logWarn "No Duolingo tabs found for action",
         MHEff.popupLog "warn" "No Duolingo tabs found for action",
         MHEff.popupDuolingoActivity false,
         MHEff.send { command := "action/result", game := GAME_NAME, id := i,
                      success := false,
                      message := "No Duolingo tab is currently open." }] from by
      simp [handleAction, hid, hne]]
    exact ⟨rfl, rfl⟩
  · intro tabs deliver
    exact ⟨rfl, rfl⟩
  · intro d tabs deliver hfalsy
    rcases hid : d.id with _ | i
    · exact ⟨by simp [handleAction, hid, sentResults], by simp [handleAction, hid, hasErrorLog]⟩
    · have hi : i = "" := by simpa [jsFalsyStr, hid] using hfalsy
      subst hi
      exact ⟨by simp [handleAction, hid, sentResults], by simp [handleAction, hid, hasErrorLog]⟩

/-- Witness for C6 at concrete inputs. -/
theorem c6_action_no_tabs_and_missing_id_witness :
    (sentResults (handleAction (some { id := some "42", rest := "" }) [] (fun _ => true)) =
      [{ command := "action/result", game := GAME_NAME, id := "42",
         success := false, message := "No Duolingo tab is currently open." }] ∧
     countTabSend (handleAction (some { id := some "42", rest := "" }) [] (fun _ => true)) = 0) ∧
    (sentResults (handleAction none [3] (fun _ => true)) = [] ∧
     hasErrorLog (handleAction none [3] (fun _ => true)) = true) ∧
    (sentResults (handleAction (some { id := none, rest := "" }) [3] (fun _ => true)) = [] ∧
     hasErrorLog (handleAction (some { id := none, rest := "" }) [3] (fun _ => true)) = true) :=
  ⟨c6_action_no_tabs_and_missing_id.1 { id := some "42", rest := "" } "42" (fun _ => true)
      rfl (by decide),
   c6_action_no_tabs_and_missing_id.2.1 [3] (fun _ => true),
   c6_action_no_tabs_and_missing_id.2.2 { id := none, rest := "" } [3] (fun _ => true) rfl⟩

/-! ## The popup log cache

`PopupManager.addLogEntry` exists twice in the repository with
identical bodies: as the class method (part of the popup manager
module) and as the object-literal method created by
`BackgroundService.createPopupManager` (src/background-main.js:70-96).
Both are embedded by the single function below. -/

/-- maxCacheSize (200 entries) in both copies. -/
def maxCacheSize : Nat := 200

/-- Argument object handed to `addLogEntry`; the `data` property is
opaque to the cache logic. -/
structure LogData where
  level : Option String
  message : String
  data : Option String
  source : Option String
deriving DecidableEq, Repr

/-- A cached log entry. -/
structure LogEntry where
  timestamp : String
  level : String
  message : String
  data : Option String
  source : String
deriving DecidableEq, Repr

/-- JavaScript `a || b` on a possibly-absent string. -/
def jsOrStr (o : Option String) (dflt : String) : String :=
  match o with
  | none => dflt
  | some s => if s = "" then dflt else s

/-- The entry object built at the top of `addLogEntry`. -/
def mkLogEntry (now : String) (d : LogData) : LogEntry :=
  { timestamp := now, level := jsOrStr d.level "info", message := d.message,
    data := d.data, source := jsOrStr d.source "system" }

/-- `addLogEntry` (src/background-main.js:70-96 and the identical class
method): push the new entry, then trim to the last `maxCacheSize`
entries when the bound is exceeded (`slice(-maxCacheSize)`). -/
def addLogEntry (cache : List LogEntry) (now : String) (d : LogData) : List LogEntry :=
  let c := cache ++ [mkLogEntry now d]
  if maxCacheSize < c.length then c.drop (c.length - maxCacheSize) else c

/-- C10: after every `addLogEntry` call the cache holds at most 200
entries, is a suffix of the previous cache with the new entry appended
(so insertion order is kept and only oldest entries are dropped), still
contains the entry just added, and has length `min (old + 1) 200`
(nothing is dropped until the bound is exceeded). -/
theorem c10_log_cache_bounded (cache : List LogEntry) (now : String) (d : LogData) :
    (addLogEntry cache now d).length ≤ maxCacheSize ∧
    (addLogEntry cache now d) <:+ (cache ++ [mkLogEntry now d]) ∧
    mkLogEntry now d ∈ addLogEntry cache now d ∧
    (addLogEntry cache now d).length = min (cache.length + 1) maxCacheSize := by
  have hm : maxCacheSize = 200 := rfl
  have hlen : (cache ++ [mkLogEntry now d]).length = cache.length + 1 := by simp
  unfold addLogEntry
  by_cases h : maxCacheSize < (cache ++ [mkLogEntry now d]).length
  · have h2 : maxCacheSize < cache.length + 1 := by rw [hlen] at h; exact h
    simp only [h, if_true]
    refine ⟨?_, List.drop_suffix _ _, ?_, ?_⟩
    · rw [List.length_drop, hlen]; omega
    · rw [hlen, List.drop_append_of_le_length (by omega)]
      exact List.mem_append_right _ (List.mem_singleton.2 rfl)
    · rw [List.length_drop, hlen, min_eq_right (by omega : maxCacheSize ≤ cache.length + 1)]
      omega
  · have h2 : ¬ maxCacheSize < cache.length + 1 := by rw [hlen] at h; exact h
    simp only [h, if_false]
    refine ⟨by rw [hlen]; omega, List.suffix_refl _,
      List.mem_append_right _ (List.mem_singleton.2 rfl),
      by rw [hlen, min_eq_left (by omega : cache.length + 1 ≤ maxCacheSize)]⟩


/-! ## The wire codec (Protocol Codec)

`handleMessage` decodes each inbound text message with `JSON.parse`
(src/neuro-connection.js:83) and `sendToNeuro` encodes each outbound
frame with `JSON.stringify` (src/neuro-connection.js:137).  The
JavaScript JSON value space and the two builtins are modelled below:
values are null, booleans, numbers (modelled as integers — every
payload this protocol carries uses integral numbers if any), strings,
arrays and objects (ordered key/value lists, as JavaScript preserves
insertion order).  `JSON.stringify` emits no insignificant whitespace
and escapes quote, backslash, newline, carriage return and tab;
`JSON.parse` accepts insignificant whitespace between tokens and the
same escapes.  Arrays and objects are given by mutually inductive list
types so that all functions below are structurally recursive. -/

mutual

/-- A JSON value. -/
inductive Json where
  | null
  | bool (b : Bool)
  | num (n : Int)
  | str (s : String)
  | arr (xs : JArr)
  | obj (kvs : JObj)

/-- A list of JSON values (array elements). -/
inductive JArr where
  | nil
  | cons (hd : Json) (tl : JArr)

/-- An ordered list of key/value properties (object members). -/
inductive JObj where
  | nil
  | cons (k : String) (v : Json) (tl : JObj)

end

/-- One escaped character of the serializer. -/
def escChar (c : Char) : List Char :=
  if c = '\"' then ['\\', '\"']
  else if c = '\\' then ['\\', '\\']
  else if c = '\n' then ['\\', 'n']
  else if c = '\r' then ['\\', 'r']
  else if c = '\t' then ['\\', 't']
  else [c]

/-- Escape a list of characters. -/
def escList : List Char → List Char
  | [] => []
  | c :: cs => escChar c ++ escList cs

/-- Serialization of a JSON string, quotes included. -/
def strChars (s : String) : List Char :=
  '\"' :: escList s.data ++ ['\"']

/-- The decimal digit character for a digit value. -/
def dCh : Nat → Char
  | 0 => '0' | 1 => '1' | 2 => '2' | 3 => '3' | 4 => '4'
  | 5 => '5' | 6 => '6' | 7 => '7' | 8 => '8' | _ => '9'

/-- Decimal representation of a natural number, most significant digit
first; the fuel argument makes the recursion structural. -/
def natCharsAux : Nat → Nat → List Char
  | 0, _ => []
  | fuel + 1, m => if m < 10 then [dCh m] else natCharsAux fuel (m / 10) ++ [dCh (m % 10)]

/-- Decimal representation of a natural number. -/
def natChars (m : Nat) : List Char := natCharsAux (m + 1) m

/-- Decimal representation of an integer. -/
def intChars (n : Int) : List Char :=
  if n < 0 then '-' :: natChars n.natAbs else natChars n.toNat

mutual

/-- Model of `JSON.stringify`, producing the character list of the
single text message for one value. -/
def jsonChars : Json → List Char
  | Json.null => ['n', 'u', 'l', 'l']
  | Json.bool true => ['t', 'r', 'u', 'e']
  | Json.bool false => ['f', 'a', 'l', 's', 'e']
  | Json.num n => intChars n
  | Json.str s => strChars s
  | Json.arr JArr.nil => ['[', ']']
  | Json.arr (JArr.cons x xs) => '[' :: (jsonChars x ++ arrChars xs ++ [']'])
  | Json.obj JObj.nil => ['\x7b', '\x7d']
  | Json.obj (JObj.cons k v kvs) =>
      '\x7b' :: (strChars k ++ ':' :: jsonChars v ++ objChars kvs ++ ['\x7d'])

/-- Serialization of the remaining array elements, each preceded by a
comma. -/
def arrChars : JArr → List Char
  | JArr.nil => []
  | JArr.cons x xs => ',' :: (jsonChars x ++ arrChars xs)

/-- Serialization of the remaining object members, each preceded by a
comma. -/
def objChars : JObj → List Char
  | JObj.nil => []
  | JObj.cons k v kvs => ',' :: (strChars k ++ ':' :: jsonChars v ++ objChars kvs)

end

/-- Encode: serialize one Frame value to a single text message. -/
def encode (j : Json) : String := String.mk (jsonChars j)

/-- JSON insignificant whitespace. -/
def isWsC (c : Char) : Bool :=
  c = ' ' || c = '\n' || c = '\r' || c = '\t'

/-- Skip insignificant whitespace. -/
def deWs : List Char → List Char
  | [] => []
  | c :: l => if isWsC c then deWs l else c :: l

/-- Unescape one escape character of the parser. -/
def unescC (c : Char) : Option Char :=
  if c = '\"' then some '\"'
  else if c = '\\' then some '\\'
  else if c = '/' then some '/'
  else if c = 'n' then some '\n'
  else if c = 'r' then some '\r'
  else if c = 't' then some '\t'
  else none

/-- Parse the body of a JSON string after the opening quote. -/
def deStr (acc : List Char) : List Char → Option (String × List Char)
  | [] => none
  | c :: l =>
      if c = '\"' then some (String.mk acc.reverse, l)
      else if c = '\\' then
        match l with
        | [] => none
        | e :: l2 =>
            match unescC e with
            | some u => deStr (u :: acc) l2
            | none => none
      else deStr (c :: acc) l

/-- Numeric value of a digit character. -/
def chVal (c : Char) : Nat := c.toNat - 48

/-- Consume a maximal run of digit characters. -/
def takeDigits (acc : List Char) : List Char → List Char × List Char
  | [] => (acc.reverse, [])
  | c :: l => if c.isDigit then takeDigits (c :: acc) l else (acc.reverse, c :: l)

/-- Value of a digit run, most significant digit first. -/
def natFromChars (ds : List Char) : Nat :=
  ds.foldl (fun a c => 10 * a + chVal c) 0

/-- Parse a JSON number (integral, as modelled). -/
def deNum : List Char → Option (Int × List Char)
  | [] => none
  | c :: l =>
      if c = '-' then
        match takeDigits [] l with
        | ([], _) => none
        | (ds, rest) => some (-(Int.ofNat (natFromChars ds)), rest)
      else
        match takeDigits [] (c :: l) with
        | ([], _) => none
        | (ds, rest) => some (Int.ofNat (natFromChars ds), rest)

mutual

/-- Model of `JSON.parse`, on one value: returns the value and the
unconsumed remainder.  The fuel argument makes the recursion
structural; `decode` supplies fuel exceeding the message length, which
every parse can need at most. -/
def deVal : Nat → List Char → Option (Json × List Char)
  | 0, _ => none
  | fuel + 1, l =>
      match deWs l with
      | [] => none
      | c :: r =>
          if c = 'n' then
            match r with
            | 'u' :: 'l' :: 'l' :: r2 => some (Json.null, r2)
            | _ => none
          else if c = 't' then
            match r with
            | 'r' :: 'u' :: 'e' :: r2 => some (Json.bool true, r2)
            | _ => none
          else if c = 'f' then
            match r with
            | 'a' :: 'l' :: 's' :: 'e' :: r2 => some (Json.bool false, r2)
            | _ => none
          else if c = '\"' then
            match deStr [] r with
            | some (s, r2) => some (Json.str s, r2)
            | none => none
          else if c = '[' then
            match deWs r with
            | [] => none
            | d :: r2 =>
                if d = ']' then some (Json.arr JArr.nil, r2)
                else deArr fuel (d :: r2)
          else if c = '\x7b' then
            match deWs r with
            | [] => none
            | d :: r2 =>
                if d = '\x7d' then some (Json.obj JObj.nil, r2)
                else deObj fuel (d :: r2)
          else if c = '-' || c.isDigit then
            match deNum (c :: r) with
            | some (n, r2) => some (Json.num n, r2)
            | none => none
          else none

/-- Parse one or more array elements up to the closing bracket. -/
def deArr : Nat → List Char → Option (Json × List Char)
  | 0, _ => none
  | fuel + 1, l =>
      match deVal fuel l with
      | none => none
      | some (v, r) =>
          match deWs r with
          | [] => none
          | c :: r2 =>
              if c = ',' then
                match deArr fuel r2 with
                | some (Json.arr xs, r3) => some (Json.arr (JArr.cons v xs), r3)
                | _ => none
              else if c = ']' then some (Json.arr (JArr.cons v JArr.nil), r2)
              else none

/-- Parse one or more object members up to the closing brace. -/
def deObj : Nat → List Char → Option (Json × List Char)
  | 0, _ => none
  | fuel + 1, l =>
      match deWs l with
      | [] => none
      | c :: r =>
          if c = '\"' then
            match deStr [] r with
            | none => none
            | some (k, r2) =>
                match deWs r2 with
                | [] => none
                | d :: r3 =>
                    if d = ':' then
                      match deVal fuel r3 with
                      | none => none
                      | some (v, r4) =>
                          match deWs r4 with
                          | [] => none
                          | e :: r5 =>
                              if e = ',' then
                                match deObj fuel r5 with
                                | some (Json.obj kvs, r6) => some (Json.obj (JObj.cons k v kvs), r6)
                                | _ => none
                              else if e = '\x7d' then
                                some (Json.obj (JObj.cons k v JObj.nil), r5)
                              else none
                    else none
          else none

end

/-- Decode: parse one complete inbound text message; fails on trailing
non-whitespace, exactly as `JSON.parse` does. -/
def decode (s : String) : Option Json :=
  match deVal (s.data.length + 1) s.data with
  | some (j, r) => if deWs r = [] then some j else none
  | none => none

/-- Whether a value is a JSON string. -/
def isStrJson : Json → Bool
  | Json.str _ => true
  | _ => false

/-- Whether an object member list carries a string `command`. -/
def hasCommandKey : JObj → Bool
  | JObj.nil => false
  | JObj.cons k v tl => (k = "command" && isStrJson v) || hasCommandKey tl

/-- Whether a decoded value is a protocol Frame: an object carrying a
string `command` property. -/
def isFrameJson : Json → Bool
  | Json.obj kvs => hasCommandKey kvs
  | _ => false


theorem data_mk (l : List Char) : (String.mk l).data = l := rfl

theorem mk_data (s : String) : String.mk s.data = s := rfl

/-- The parser undoes the serializer's escaping: reading an escaped
character list up to the closing quote yields the original characters. -/
theorem deStr_escList (cs : List Char) : ∀ (acc rest : List Char),
    deStr acc (escList cs ++ '\"' :: rest) = some (String.mk (acc.reverse ++ cs), rest) := by
  induction cs with
  | nil =>
      intro acc rest
      simp only [escList, List.nil_append, List.append_nil]
      rw [deStr.eq_def]
      simp
  | cons c cs ih =>
      intro acc rest
      by_cases h1 : c = '\"'
      · subst h1
        simp only [escList, escChar, if_pos rfl, List.cons_append, List.append_assoc]
        rw [deStr.eq_def]
        simp [unescC, ih]
      · by_cases h2 : c = '\\'
        · subst h2
          simp only [escList, escChar, List.cons_append, List.append_assoc]
          rw [deStr.eq_def]
          simp [unescC, ih]
        · by_cases h3 : c = '\n'
          · subst h3
            simp only [escList, escChar, List.cons_append, List.append_assoc]
            rw [deStr.eq_def]
            simp [unescC, ih]
          · by_cases h4 : c = '\r'
            · subst h4
              simp only [escList, escChar, List.cons_append, List.append_assoc]
              rw [deStr.eq_def]
              simp [unescC, ih]
            · by_cases h5 : c = '\t'
              · subst h5
                simp only [escList, escChar, List.cons_append, List.append_assoc]
                rw [deStr.eq_def]
                simp [unescC, ih]
              · simp only [escList, escChar, h1, h2, h3, h4, h5, if_false,
                  List.cons_append, List.singleton_append, List.append_assoc]
                rw [deStr.eq_def]
                simp [h1, h2, ih]

/-- Facts about digit characters produced by the serializer. -/
theorem dCh_spec (d : Nat) :
    (dCh d).isDigit = true ∧ dCh d ≠ 'n' ∧ dCh d ≠ 't' ∧ dCh d ≠ 'f' ∧
    dCh d ≠ '\"' ∧ dCh d ≠ '[' ∧ dCh d ≠ '\x7b' ∧ dCh d ≠ ']' ∧ dCh d ≠ '-' ∧
    dCh d ≠ ' ' ∧ dCh d ≠ '\n' ∧ dCh d ≠ '\x0d' ∧ dCh d ≠ '\t' := by
  rcases d with _|_|_|_|_|_|_|_|_|d
  · decide
  · decide
  · decide
  · decide
  · decide
  · decide
  · decide
  · decide
  · decide
  · have h9 : dCh (d + 1 + 1 + 1 + 1 + 1 + 1 + 1 + 1 + 1) = '9' := rfl
    rw [h9]
    decide

/-- Digit value of a digit character, for digits below ten. -/
theorem chVal_dCh (d : Nat) (h : d < 10) : chVal (dCh d) = d := by
  rcases d with _|_|_|_|_|_|_|_|_|d
  · decide
  · decide
  · decide
  · decide
  · decide
  · decide
  · decide
  · decide
  · decide
  · have hd : d = 0 := by omega
    subst hd
    decide

/-- The first character of the remainder is not a digit. -/
def noDigitHead : List Char → Prop
  | [] => True
  | c :: _ => c.isDigit = false

theorem takeDigits_append (ds : List Char) : ∀ (acc rest : List Char),
    (∀ c ∈ ds, c.isDigit = true) → noDigitHead rest →
    takeDigits acc (ds ++ rest) = (acc.reverse ++ ds, rest) := by
  induction ds with
  | nil =>
      intro acc rest _ hrest
      cases rest with
      | nil => simp [takeDigits]
      | cons c t => simp [takeDigits, noDigitHead] at hrest ⊢; simp [hrest]
  | cons c ds ih =>
      intro acc rest hds hrest
      have hc : c.isDigit = true := hds c (by simp)
      simp only [List.cons_append, takeDigits, hc, if_true, List.append_eq]
      rw [ih (c :: acc) rest (fun x hx => hds x (by simp [hx])) hrest]
      simp

theorem natCharsAux_digits : ∀ (fuel m : Nat), ∀ c ∈ natCharsAux fuel m, c.isDigit = true := by
  intro fuel
  induction fuel with
  | zero => intro m c hc; simp [natCharsAux] at hc
  | succ fuel ih =>
      intro m c hc
      by_cases h10 : m < 10
      · simp [natCharsAux, h10] at hc
        subst hc
        exact (dCh_spec m).1
      · simp [natCharsAux, h10] at hc
        rcases hc with hc | hc
        · exact ih _ c hc
        · subst hc
          exact (dCh_spec (m % 10)).1

theorem natCharsAux_shape (fuel m : Nat) :
    natCharsAux fuel m = [] ∨ ∃ d t, natCharsAux fuel m = dCh d :: t := by
  induction fuel generalizing m with
  | zero => exact Or.inl rfl
  | succ fuel ih =>
      by_cases h10 : m < 10
      · exact Or.inr ⟨m, [], by simp [natCharsAux, h10]⟩
      · rcases ih (m / 10) with h | ⟨d, t, h⟩
        · exact Or.inr ⟨m % 10, [], by simp [natCharsAux, h10, h]⟩
        · exact Or.inr ⟨d, t ++ [dCh (m % 10)], by simp [natCharsAux, h10, h]⟩

theorem foldl_natCharsAux : ∀ (fuel m A : Nat), m < fuel →
    (natCharsAux fuel m).foldl (fun a c => 10 * a + chVal c) A
      = A * 10 ^ (natCharsAux fuel m).length + m := by
  intro fuel
  induction fuel with
  | zero => intro m A h; omega
  | succ fuel ih =>
      intro m A h
      by_cases h10 : m < 10
      · simp [natCharsAux, h10, chVal_dCh m h10]
        omega
      · have hdiv : m / 10 < fuel := by omega
        simp only [natCharsAux, h10, if_false, List.foldl_append, List.foldl_cons,
          List.foldl_nil, List.length_append, List.length_cons, List.length_nil]
        rw [ih (m / 10) A hdiv, chVal_dCh (m % 10) (by omega)]
        have hpow : 10 ^ ((natCharsAux fuel (m / 10)).length + (0 + 1))
            = 10 ^ (natCharsAux fuel (m / 10)).length * 10 := by
          rw [Nat.zero_add, pow_succ]
        rw [hpow]
        have hm : 10 * (m / 10) + m % 10 = m := Nat.div_add_mod m 10
        ring_nf
        omega


theorem natCharsAux_ne_nil (fuel m : Nat) (h : 0 < fuel) : natCharsAux fuel m ≠ [] := by
  cases fuel with
  | zero => omega
  | succ fuel => by_cases h10 : m < 10 <;> simp [natCharsAux, h10]

theorem natChars_digits (m : Nat) : ∀ c ∈ natChars m, c.isDigit = true :=
  natCharsAux_digits (m + 1) m

theorem natChars_shape (m : Nat) : ∃ d t, natChars m = dCh d :: t := by
  rcases natCharsAux_shape (m + 1) m with h | h
  · exact absurd h (natCharsAux_ne_nil (m + 1) m (by omega))
  · exact h

theorem natFromChars_natChars (m : Nat) : natFromChars (natChars m) = m := by
  unfold natFromChars natChars
  rw [foldl_natCharsAux (m + 1) m 0 (by omega)]
  simp

theorem deNum_intChars (n : Int) (rest : List Char) (hrest : noDigitHead rest) :
    deNum (intChars n ++ rest) = some (n, rest) := by
  by_cases hneg : n < 0
  · have h1 : intChars n = '-' :: natChars n.natAbs := by simp [intChars, hneg]
    obtain ⟨d, t, hshape⟩ := natChars_shape n.natAbs
    rw [h1, List.cons_append, deNum.eq_def]
    simp only [if_pos rfl]
    rw [takeDigits_append (natChars n.natAbs) [] rest (natChars_digits n.natAbs) hrest]
    rw [hshape]
    simp only [List.reverse_nil, List.nil_append]
    rw [← hshape, natFromChars_natChars]
    have hofn : -(Int.ofNat n.natAbs) = n := by rw [Int.ofNat_eq_natCast]; omega
    rw [hofn]
    simp
  · have h1 : intChars n = natChars n.toNat := by simp [intChars, hneg]
    obtain ⟨d, t, hshape⟩ := natChars_shape n.toNat
    rw [h1, hshape, List.cons_append, deNum.eq_def]
    have hne : dCh d ≠ '-' := (dCh_spec d).2.2.2.2.2.2.2.2.1
    simp only [hne, if_false]
    rw [show dCh d :: (t ++ rest) = (dCh d :: t) ++ rest from rfl, ← hshape]
    rw [takeDigits_append (natChars n.toNat) [] rest (natChars_digits n.toNat) hrest]
    rw [hshape]
    simp only [List.reverse_nil, List.nil_append]
    rw [← hshape, natFromChars_natChars]
    have hofn : Int.ofNat n.toNat = n := by rw [Int.ofNat_eq_natCast]; omega
    rw [hofn]

/-- The first character of any serialized value is not whitespace and
is not a closing bracket. -/
theorem jsonChars_head (j : Json) :
    ∃ c t, jsonChars j = c :: t ∧
      c ≠ ' ' ∧ c ≠ '\n' ∧ c ≠ '\x0d' ∧ c ≠ '\t' ∧ c ≠ ']' := by
  cases j with
  | null => exact ⟨'n', _, rfl, by decide, by decide, by decide, by decide, by decide⟩
  | bool b => cases b with
    | false => exact ⟨'f', _, rfl, by decide, by decide, by decide, by decide, by decide⟩
    | true => exact ⟨'t', _, rfl, by decide, by decide, by decide, by decide, by decide⟩
  | num n =>
      by_cases hneg : n < 0
      · refine ⟨'-', natChars n.natAbs, ?_, by decide, by decide, by decide, by decide, by decide⟩
        show intChars n = _
        simp [intChars, hneg]
      · obtain ⟨d, t, hshape⟩ := natChars_shape n.toNat
        obtain ⟨_, _, _, _, _, _, _, hrb, _, hsp, hnl, hcr, htb⟩ := dCh_spec d
        refine ⟨dCh d, t, ?_, hsp, hnl, hcr, htb, hrb⟩
        show intChars n = _
        simp [intChars, hneg, hshape]
  | str s => exact ⟨'\"', _, rfl, by decide, by decide, by decide, by decide, by decide⟩
  | arr xs => cases xs with
    | nil => exact ⟨'[', _, rfl, by decide, by decide, by decide, by decide, by decide⟩
    | cons x xs => exact ⟨'[', _, rfl, by decide, by decide, by decide, by decide, by decide⟩
  | obj kvs => cases kvs with
    | nil => exact ⟨'\x7b', _, rfl, by decide, by decide, by decide, by decide, by decide⟩
    | cons k v kvs => exact ⟨'\x7b', _, rfl, by decide, by decide, by decide, by decide, by decide⟩

theorem jsonChars_length_pos (j : Json) : 1 ≤ (jsonChars j).length := by
  obtain ⟨c, t, hct, _⟩ := jsonChars_head j
  simp [hct]

theorem noDigit_arrTail (xs : JArr) (rest : List Char) :
    noDigitHead (arrChars xs ++ ']' :: rest) := by
  cases xs with
  | nil => simp [arrChars, noDigitHead]
  | cons x xs => simp [arrChars, noDigitHead]

theorem noDigit_objTail (kvs : JObj) (rest : List Char) :
    noDigitHead (objChars kvs ++ '\x7d' :: rest) := by
  cases kvs with
  | nil => simp [objChars, noDigitHead]
  | cons k v kvs => simp [objChars, noDigitHead]

theorem len_arr_cons (x : Json) (xs : JArr) :
    (jsonChars (Json.arr (JArr.cons x xs))).length
      = (jsonChars x).length + (arrChars xs).length + 2 := by
  simp only [jsonChars, List.length_cons, List.length_append, List.length_singleton,
    List.length_nil]

theorem len_obj_cons (k : String) (v : Json) (kvs : JObj) :
    (jsonChars (Json.obj (JObj.cons k v kvs))).length
      = (strChars k).length + (jsonChars v).length + (objChars kvs).length + 3 := by
  simp only [jsonChars, List.length_cons, List.length_append, List.length_singleton,
    List.length_nil]
  omega

theorem len_arrChars_cons (y : Json) (ys : JArr) :
    (arrChars (JArr.cons y ys)).length
      = (jsonChars y).length + (arrChars ys).length + 1 := by
  simp only [arrChars, List.length_cons, List.length_append, List.length_singleton,
    List.length_nil]

theorem len_objChars_cons (k : String) (v : Json) (kvs : JObj) :
    (objChars (JObj.cons k v kvs)).length
      = (strChars k).length + (jsonChars v).length + (objChars kvs).length + 2 := by
  simp only [objChars, List.length_cons, List.length_append, List.length_singleton,
    List.length_nil]
  omega

/-- Round trip of the parser over the serializer, stated jointly for
values, array element sequences and object member sequences, with the
fuel bounded below by the length of the consumed serialization. -/
theorem deVal_reads : ∀ f : Nat,
    (∀ (j : Json) (rest : List Char), (jsonChars j).length ≤ f → noDigitHead rest →
        deVal f (jsonChars j ++ rest) = some (j, rest)) ∧
    (∀ (x : Json) (xs : JArr) (rest : List Char),
        (jsonChars x).length + (arrChars xs).length + 1 ≤ f →
        deArr f (jsonChars x ++ arrChars xs ++ ']' :: rest)
          = some (Json.arr (JArr.cons x xs), rest)) ∧
    (∀ (k : String) (v : Json) (kvs : JObj) (rest : List Char),
        (strChars k).length + (jsonChars v).length + (objChars kvs).length + 2 ≤ f →
        deObj f (strChars k ++ ':' :: jsonChars v ++ objChars kvs ++ '\x7d' :: rest)
          = some (Json.obj (JObj.cons k v kvs), rest)) := by
  intro f
  induction f using Nat.strong_induction_on with
  | _ f IH =>
  rcases f with _ | g
  · refine ⟨?_, ?_, ?_⟩
    · intro j rest hlen _
      have := jsonChars_length_pos j
      omega
    · intro x xs rest hlen
      omega
    · intro k v kvs rest hlen
      omega
  · have IHg := IH g (by omega)
    refine ⟨?_, ?_, ?_⟩
    · intro j rest hlen hrest
      cases j with
      | null => simp [deVal, deWs, isWsC]
      | bool b => cases b <;> simp [deVal, deWs, isWsC]
      | num n =>
          have hnum := deNum_intChars n rest hrest
          have h2 : jsonChars (Json.num n) = intChars n := rfl
          by_cases hneg : n < 0
          · have h3 : intChars n = '-' :: natChars n.natAbs := by simp [intChars, hneg]
            rw [h2, h3]
            rw [h3, List.cons_append] at hnum
            simp [deVal, deWs, isWsC, hnum]
          · obtain ⟨d, t, hshape⟩ := natChars_shape n.toNat
            have h3 : intChars n = dCh d :: t := by simp [intChars, hneg, hshape]
            rw [h2, h3]
            rw [h3, List.cons_append] at hnum
            obtain ⟨hdig, hn, ht2, hf2, hq2, hlb2, hob2, hrb2, hmi2, hsp, hnl, hcr, htb⟩ :=
              dCh_spec d
            simp [deVal, deWs, isWsC, hn, ht2, hf2, hq2, hlb2, hob2, hmi2, hdig, hnum,
              hsp, hnl, hcr, htb]
      | str s =>
          show deVal (g + 1) (strChars s ++ rest) = _
          simp only [strChars, List.cons_append, List.append_assoc, List.singleton_append]
          simp [deVal, deWs, isWsC, deStr_escList s.data [] rest, mk_data]
      | arr xs =>
          cases xs with
          | nil => simp [deVal, deWs, isWsC, jsonChars]
          | cons x xs =>
              obtain ⟨c, t, hct, hsp, hnl, hcr, htb, hbr⟩ := jsonChars_head x
              rw [len_arr_cons] at hlen
              have harr := IHg.2.1 x xs rest (by omega)
              show deVal (g + 1)
                  (('[' :: (jsonChars x ++ arrChars xs ++ [']'])) ++ rest) = _
              rw [hct] at harr ⊢
              simp only [List.cons_append, List.append_assoc, List.singleton_append] at harr ⊢
              simp [deVal, deWs, isWsC, hsp, hnl, hcr, htb, hbr, harr]
      | obj kvs =>
          cases kvs with
          | nil => simp [deVal, deWs, isWsC, jsonChars]
          | cons k v kvs =>
              rw [len_obj_cons] at hlen
              have hobj := IHg.2.2 k v kvs rest (by omega)
              show deVal (g + 1)
                  (('\x7b' :: (strChars k ++ ':' :: jsonChars v ++ objChars kvs ++ ['\x7d'])) ++ rest) = _
              simp only [strChars, List.cons_append, List.append_assoc,
                List.singleton_append, List.nil_append] at hobj ⊢
              simp [deVal, deWs, isWsC, hobj]
    · intro x xs rest hlen
      have hval := IHg.1 x (arrChars xs ++ ']' :: rest) (by omega) (noDigit_arrTail xs rest)
      cases xs with
      | nil =>
          simp only [arrChars, List.nil_append] at hval ⊢
          simp only [List.append_assoc, List.nil_append]
          simp [deArr, hval, deWs, isWsC]
      | cons y ys =>
          rw [len_arrChars_cons] at hlen
          have harr2 := IHg.2.1 y ys rest (by omega)
          simp only [arrChars, List.cons_append, List.append_assoc] at hval harr2 ⊢
          simp [deArr, hval, deWs, isWsC, harr2]
    · intro k v kvs rest hlen
      have hval := IHg.1 v (objChars kvs ++ '\x7d' :: rest) (by omega) (noDigit_objTail kvs rest)
      have hkey := deStr_escList k.data []
        (':' :: (jsonChars v ++ objChars kvs ++ '\x7d' :: rest))
      cases kvs with
      | nil =>
          simp only [objChars, List.nil_append] at hval hkey ⊢
          simp only [strChars, List.cons_append, List.append_assoc, List.nil_append,
            List.singleton_append] at hkey ⊢
          simp [deObj, deWs, isWsC, hkey, mk_data, hval]
      | cons k2 v2 tl =>
          rw [len_objChars_cons] at hlen
          have hobj2 := IHg.2.2 k2 v2 tl rest (by omega)
          simp only [objChars, strChars, List.cons_append, List.append_assoc,
            List.singleton_append, List.nil_append] at hval hkey hobj2 ⊢
          simp [deObj, deWs, isWsC, hkey, mk_data, hval, hobj2]


/-- Decoding a serialized value recovers the value exactly. -/
theorem decode_encode (j : Json) : decode (encode j) = some j := by
  unfold decode encode
  rw [data_mk]
  have h := (deVal_reads ((jsonChars j).length + 1)).1 j [] (by omega) trivial
  rw [List.append_nil] at h
  rw [h]
  simp [deWs]

/-- Whether a text message decodes to a well-formed Frame. -/
def decodesToFrame (x : String) : Bool :=
  match decode x with
  | some j => isFrameJson j
  | none => false

/-- A well-formed Frame text message containing insignificant
whitespace, as `JSON.parse` accepts. -/
def c9Input : String :=
  String.mk ['\x7b', ' ', '\"', 'c', 'o', 'm', 'm', 'a', 'n', 'd', '\"', ':', ' ',
             '\"', 'p', 'i', 'n', 'g', '\"', ' ', '\x7d']

/-- C9 counterexample: `c9Input` is a well-formed Frame text message,
but `encode (decode c9Input)` is not `c9Input` — serialization drops
the insignificant whitespace that parsing accepted, so the codec does
not satisfy encode∘decode = id on all well-formed Frame texts. -/
theorem c9_encode_decode_not_identity :
    decodesToFrame c9Input = true ∧
    Option.map encode (decode c9Input) ≠ some c9Input :=
  ⟨rfl, by decide⟩

/-- C9 amended: the codec round-trips in the value direction — for
every well-formed Frame value `f`, `decode (encode f) = f` — and
therefore encode∘decode is the identity on canonical (re-encoded)
Frame texts; on other well-formed texts it only normalizes whitespace
and formatting. -/
theorem c9_decode_encode_roundtrip (j : Json) (hFrame : isFrameJson j = true) :
    decode (encode j) = some j ∧
    Option.map encode (decode (encode j)) = some (encode j) := by
  refine ⟨decode_encode j, ?_⟩
  rw [decode_encode j]
  rfl

/-- A concrete Frame value of this protocol. -/
def c9Frame : Json :=
  Json.obj (JObj.cons "command" (Json.str "action/result")
    (JObj.cons "game" (Json.str "Neuro-Duolingo Game")
      (JObj.cons "data" (Json.obj (JObj.cons "id" (Json.str "42")
        (JObj.cons "success" (Json.bool false)
          (JObj.cons "message" (Json.str "No Duolingo tab is currently open.") JObj.nil))))
        JObj.nil)))

/-- Witness for C9 at a concrete Frame value. -/
theorem c9_decode_encode_roundtrip_witness :
    isFrameJson c9Frame = true ∧
    (decode (encode c9Frame) = some c9Frame ∧
     Option.map encode (decode (encode c9Frame)) = some (encode c9Frame)) :=
  ⟨rfl, c9_decode_encode_roundtrip c9Frame rfl⟩

end NeuroLingo
